import Mathlib

/-!
Verification of `ultimate_pipeline.py` (build/test pipeline tool).

The Python source is shallowly embedded: strings are `List Char` / `String`,
Python `float` values become `Rat`, Python exceptions become `Except`.
The two concrete regular expressions of `TestParser.parse_results` are
embedded as deterministic character-level scanners that reproduce
`re.finditer` / `re.search` semantics for exactly those patterns
(left-to-right scan, lazy `.*?` not crossing a newline, greedy `\d+` and
`[\d.]+` runs, optional trailing `s`).
-/

deriving instance DecidableEq for Except

abbrev Chars := List Char

/-- Python `str.split(sep)` (keeps empty fields): accumulator-based scanner. -/
def pySplitAux (sep : Char) (acc : Chars) : Chars → List Chars
  | [] => [acc.reverse]
  | c :: rest =>
    if c = sep then acc.reverse :: pySplitAux sep [] rest
    else pySplitAux sep (c :: acc) rest

/-- Python `s.split(sep)` on a string, as a list of strings. -/
def pySplit (sep : Char) (s : String) : List String :=
  (pySplitAux sep [] s.data).map String.mk

/-- Match a literal: `some rest` iff `lit` is a prefix of `cs`. -/
def dropLit (lit cs : Chars) : Option Chars :=
  if lit.isPrefixOf cs then some (cs.drop lit.length) else none

/-- Characters matched by the regex class `[\d.]` (ASCII model of `\d`). -/
def isDurChar (c : Char) : Bool := c.isDigit || c = '.'

/-- One parsed per-case match of the pattern
`Test Case '(.*?)' (passed|failed) \(([\d.]+) seconds\)`:
raw (unnormalized) name, status group, duration group text. -/
structure RawMatch where
  name : String
  status : String
  dur : String
  deriving DecidableEq

/-- Tail of the per-case pattern after the lazy name group:
`' (passed|failed) \(([\d.]+) seconds\)` with the status already fixed;
this part parses ` \(([\d.]+) seconds\)`. Greedy `[\d.]+` followed by a
literal whose first char is not in the class is a maximal nonempty run. -/
def matchDur (st : String) (cs : Chars) : Option (String × String × Chars) :=
  match dropLit (" (".data) cs with
  | none => none
  | some cs1 =>
    let ds := cs1.takeWhile isDurChar
    if ds.isEmpty then none
    else
      match dropLit (" seconds)".data) (cs1.dropWhile isDurChar) with
      | none => none
      | some rest => some (st, String.mk ds, rest)

/-- The pattern tail starting at the closing quote: `' (passed|failed) ...`. -/
def matchTail (cs : Chars) : Option (String × String × Chars) :=
  match dropLit ("' ".data) cs with
  | none => none
  | some cs1 =>
    match dropLit ("passed".data) cs1 with
    | some cs2 => matchDur "passed" cs2
    | none =>
      match dropLit ("failed".data) cs1 with
      | some cs2 => matchDur "failed" cs2
      | none => none

/-- Lazy `(.*?)` group: take the shortest run of non-newline characters such
that the pattern tail matches right after it. -/
def lazyName (acc : Chars) : Chars → Option (Chars × String × String × Chars)
  | [] =>
    match matchTail [] with
    | some (st, d, rest) => some (acc.reverse, st, d, rest)
    | none => none
  | c :: cs' =>
    match matchTail (c :: cs') with
    | some (st, d, rest) => some (acc.reverse, st, d, rest)
    | none => if c = '\n' then none else lazyName (c :: acc) cs'

/-- Try the whole per-case pattern anchored at the head of `cs`. -/
def tryMatchAt (cs : Chars) : Option (RawMatch × Chars) :=
  match dropLit ("Test Case '".data) cs with
  | none => none
  | some cs1 =>
    match lazyName [] cs1 with
    | some (n, st, d, rest) => some (⟨String.mk n, st, d⟩, rest)
    | none => none

/-- Model of `re.finditer` over the per-case pattern: scan left to right, emit
non-overlapping matches, resume after each match.  The fuel equals the
remaining text length; each step either advances one character or consumes
a whole match (length at least 11), so the initial fuel `cs.length`
never runs out while `cs` is nonempty. -/
def findMatchesAux : Nat → Chars → List RawMatch
  | 0, _ => []
  | fuel + 1, [] =>
    match tryMatchAt [] with
    | some (m, rest) => m :: findMatchesAux fuel rest
    | none => []
  | fuel + 1, c :: cs' =>
    match tryMatchAt (c :: cs') with
    | some (m, rest) => m :: findMatchesAux fuel rest
    | none => findMatchesAux fuel cs'

def findMatches (cs : Chars) : List RawMatch := findMatchesAux cs.length cs

/-- Greedy `\d+` group: maximal nonempty ASCII digit run, returning its value. -/
def digitsToNat (ds : Chars) : Nat :=
  ds.foldl (fun a c => 10 * a + (c.toNat - 48)) 0

/-- Try the summary pattern `Executed (\d+) tests?, with (\d+) failures?`
anchored at the head of `cs`; yields the two numeric groups. -/
def trySummaryAt (cs : Chars) : Option (Nat × Nat) :=
  match dropLit ("Executed ".data) cs with
  | none => none
  | some cs1 =>
    let d1 := cs1.takeWhile Char.isDigit
    if d1.isEmpty then none
    else
      match dropLit (" test".data) (cs1.dropWhile Char.isDigit) with
      | none => none
      | some cs2 =>
        match (dropLit ("s, with ".data) cs2).orElse (fun _ => dropLit (", with ".data) cs2) with
        | none => none
        | some cs3 =>
          let d2 := cs3.takeWhile Char.isDigit
          if d2.isEmpty then none
          else
            match dropLit (" failure".data) (cs3.dropWhile Char.isDigit) with
            | none => none
            | some _ => some (digitsToNat d1, digitsToNat d2)

/-- Model of `re.search` over the summary pattern: first position where it matches. -/
def findSummary : Chars → Option (Nat × Nat)
  | [] => none
  | c :: cs' =>
    match trySummaryAt (c :: cs') with
    | some r => some r
    | none => findSummary cs'

/-- Python `float(s)` restricted to the `[\d.]+` group text: succeeds iff
there is at most one dot and at least one digit; value as an exact `Rat`
(so `float("1.2.3")` and `float(".")` raise, i.e. return `none`). -/
def parseDur (s : String) : Option Rat :=
  let cs := s.data
  if cs.count '.' ≤ 1 ∧ cs.any Char.isDigit then
    let intPart := cs.takeWhile (fun c => c ≠ '.')
    match cs.dropWhile (fun c => c ≠ '.') with
    | [] => some (mkRat (digitsToNat intPart) 1)
    | _ :: frac =>
      some (mkRat (digitsToNat intPart * 10 ^ frac.length + digitsToNat frac) (10 ^ frac.length))
  else none

/-- Dataclass `TestResult` (name, status, duration). -/
structure TestResult where
  name : String
  status : String
  duration : Rat
  deriving DecidableEq

/-- The inline name normalization of `parse_results`
(`if '.' in test_name: parts = test_name.split('.'); if len(parts) >= 2:
test_name = f"{parts[-2]}.{parts[-1]}"`). -/
def normalizeName (s : String) : String :=
  if s.data.contains '.' then
    let parts := pySplit '.' s
    if 2 ≤ parts.length then
      parts.getD (parts.length - 2) "" ++ "." ++ parts.getD (parts.length - 1) ""
    else s
  else s

/-- The per-match record-building loop of `parse_results`: each match's
duration group goes through `float` (which may raise, aborting the whole
call with the offending text), its name is normalized, and a `TestResult`
is appended. -/
def buildTests : List RawMatch → Except String (List TestResult)
  | [] => .ok []
  | m :: rest =>
    match parseDur m.dur with
    | none => .error m.dur
    | some d =>
      match buildTests rest with
      | .error e => .error e
      | .ok ts => .ok (⟨normalizeName m.name, m.status, d⟩ :: ts)

/-- Python `sum(1 for t in tests if t.status == s)`. -/
def countStatus (s : String) (ts : List TestResult) : Nat :=
  (ts.filter (fun t => t.status == s)).length

/-- Embedding of `TestParser.parse_results`: returns `(tests, total, passed, failed)`,
or `.error` when a matched duration makes `float` raise.  Totals tie-break:
summary line first (`passed = total - failed`, possibly negative, hence
`Int`), else count the records, else all zero. -/
def parse_results (output : String) : Except String (List TestResult × Int × Int × Int) :=
  match buildTests (findMatches output.data) with
  | .error e => .error e
  | .ok tests =>
    match findSummary output.data with
    | some (n, f) => .ok (tests, (n : Int), (n : Int) - (f : Int), (f : Int))
    | none =>
      if tests.isEmpty then .ok (tests, 0, 0, 0)
      else .ok (tests, (tests.length : Int), (countStatus "passed" tests : Int),
                (countStatus "failed" tests : Int))

/-- Dataclass `DiagnosticIssue` (category, severity, message, file, line). -/
structure DiagnosticIssue where
  category : String
  severity : String
  message : String
  file : Option String := none
  line : Option Nat := none
  deriving DecidableEq

/-- Python `sub in hay` (substring containment). -/
def containsSub (hay sub : Chars) : Bool :=
  if sub.isPrefixOf hay then true
  else
    match hay with
    | [] => false
    | _ :: t => containsSub t sub

/-- Python `str.lower()` (ASCII model). -/
def pyLower (s : String) : String := String.mk (s.data.map Char.toLower)

/-- Python `str.strip()`: drop leading and trailing whitespace. -/
def pyStrip (s : String) : String :=
  String.mk (((s.data.dropWhile Char.isWhitespace).reverse.dropWhile Char.isWhitespace).reverse)

/-- Python `"error:" in line.lower()` of `analyze_build_output`. -/
def hasErrorMarker (line : String) : Bool := containsSub (pyLower line).data ("error:".data)

/-- Python `"warning:" in line.lower()` of `analyze_build_output`. -/
def hasWarningMarker (line : String) : Bool := containsSub (pyLower line).data ("warning:".data)

/-- The per-line `if`/`elif` of `DiagnosticsEngine.analyze_build_output`:
at most one record per line, error marker taking precedence. -/
def classifyLine (line : String) : Option DiagnosticIssue :=
  if hasErrorMarker line then some ⟨"Build Error", "critical", pyStrip line, none, none⟩
  else if hasWarningMarker line then some ⟨"Build Warning", "warning", pyStrip line, none, none⟩
  else none

/-- The lines scanned by `analyze_build_output` (`output.split('\n')`). -/
def pyLines (output : String) : List String := pySplit '\n' output

/-- Embedding of `DiagnosticsEngine.analyze_build_output`: scan the split lines in order,
appending the record (if any) each line produces. -/
def analyze_build_output (output : String) : List DiagnosticIssue :=
  (pyLines output).filterMap classifyLine

/-- Python `hay.count(sub)` for a nonempty `sub`: number of non-overlapping
occurrences, scanning left to right (fueled by the text length). -/
def countSubAux : Nat → Chars → Chars → Nat
  | 0, _, _ => 0
  | fuel + 1, hay, sub =>
    if sub.isPrefixOf hay then
      match hay with
      | [] => 0
      | _ :: _ => 1 + countSubAux fuel (hay.drop sub.length) sub
    else
      match hay with
      | [] => 0
      | _ :: t => countSubAux fuel t sub

def countSub (hay sub : String) : Nat := countSubAux hay.data.length hay.data sub.data

/-- One Swift file as seen by `analyze_source_code`: its path, its basename
(`swift_file.name`), and its content — `none` models `read_text()` raising
(permission / encoding error), which the `except: pass` swallows. -/
structure SwiftFile where
  path : String
  name : String
  content : Option String
  deriving DecidableEq

/-- The four independent heuristics `analyze_source_code` applies to one
readable file's content, in source order; each contributes at most one
record. -/
def analyzeFile (f : SwiftFile) (content : String) : List DiagnosticIssue :=
  (if containsSub content.data ("try!".data) || containsSub content.data ("force try!".data) then
    [⟨"Code Quality", "warning", "Force try detected in " ++ f.name, some f.path, none⟩]
  else []) ++
  (if content.data.count '!' > 15 then
    [⟨"Code Quality", "info",
      "Excessive force unwrapping in " ++ f.name ++ " (" ++ toString (content.data.count '!') ++
        " instances)", some f.path, none⟩]
  else []) ++
  (if containsSub content.data ("print(".data) && countSub content "print(" > 5 then
    [⟨"Code Quality", "info", "Multiple debug print statements in " ++ f.name, some f.path, none⟩]
  else []) ++
  (if (pySplit '\n' content).length > 500 then
    [⟨"Code Quality", "info",
      "Very long file: " ++ f.name ++ " (" ++ toString (pySplit '\n' content).length ++ " lines)",
      some f.path, none⟩]
  else [])

/-- Embedding of `DiagnosticsEngine.analyze_source_code`: walk the discovered files in
traversal order; an unreadable file (`content = none`) is skipped by the
`try`/`except` and contributes nothing. -/
def analyze_source_code (files : List SwiftFile) : List DiagnosticIssue :=
  match files with
  | [] => []
  | f :: rest =>
    (match f.content with
     | none => []
     | some c => analyzeFile f c) ++ analyze_source_code rest

/-- Dataclass `ProjectConfig`. -/
structure ProjectConfig where
  path : String
  name : String
  project_file : String
  scheme : String
  is_workspace : Bool
  bundle_id : Option String := none
  deriving DecidableEq

/-- The values `ReportGenerator.generate_html` computes and renders into the
HTML document: summary statistics, project fields, and the (truncated)
record lists with their "N more" indicators.  The surrounding static markup
is not modelled; each field corresponds to one source expression. -/
structure Report where
  passed : Nat
  failed : Nat
  total : Nat
  successRate : Rat
  criticalIssues : Nat
  warningIssues : Nat
  infoIssues : Nat
  issuesFound : Nat
  projectType : String
  bundleDisplay : String
  buildStatus : String
  displayedTests : List TestResult
  moreTests : Option Nat
  displayedIssues : List DiagnosticIssue
  moreIssues : Option Nat
  deriving DecidableEq

/-- Embedding of `ReportGenerator.generate_html`.  `successRate` is
`(passed/total*100) if total > 0 else 0` (exact rational in place of the
Python float); `displayedTests`/`displayedIssues` are `tests[:50]` /
`issues[:100]`; `moreTests`/`moreIssues` carry the "... and N more" counts
emitted when the caps are exceeded; `bundleDisplay` is
`bundle_id or 'N/A'` (so an empty string also falls back). -/
def generate_html (cfg : ProjectConfig) (tests : List TestResult)
    (issues : List DiagnosticIssue) (build_success : Bool) : Report :=
  let passed := (tests.filter (fun t => t.status == "passed")).length
  let total := tests.length
  { passed := passed
    failed := (tests.filter (fun t => t.status == "failed")).length
    total := total
    successRate := if total > 0 then (passed : Rat) / (total : Rat) * 100 else 0
    criticalIssues := (issues.filter (fun i => i.severity == "critical")).length
    warningIssues := (issues.filter (fun i => i.severity == "warning")).length
    infoIssues := (issues.filter (fun i => i.severity == "info")).length
    issuesFound := issues.length
    projectType := if cfg.is_workspace then "Workspace" else "Project"
    bundleDisplay :=
      match cfg.bundle_id with
      | none => "N/A"
      | some b => if b == "" then "N/A" else b
    buildStatus := if build_success then "SUCCESS" else "FAILED"
    displayedTests := tests.take 50
    moreTests := if tests.length > 50 then some (tests.length - 50) else none
    displayedIssues := issues.take 100
    moreIssues := if issues.length > 100 then some (issues.length - 100) else none }

/-- Embedding of `CommandRunner.run`.  The subprocess interaction is abstracted as its
observable outcome: `.ok (lines, rc)` when the process could be spawned and
streamed to completion (the collected output lines and the exit status), and
`.error e` when any exception was raised (launch or streaming failure, `e`
being `str(e)`).  The body maps that outcome to the returned triple
`(succeeded, output, error)` exactly as the `try`/`except` does. -/
def CommandRunner.run (outcome : Except String (List String × Int)) : Bool × String × String :=
  match outcome with
  | .ok (lines, rc) => (rc == 0, String.join lines, "")
  | .error e => (false, "", e)

theorem matchDur_status (st : String) (cs : Chars) (st' d : String) (rest : Chars)
    (h : matchDur st cs = some (st', d, rest)) : st' = st := by
  unfold matchDur at h
  cases h1 : dropLit (" (".data) cs with
  | none => simp [h1] at h
  | some cs1 =>
    simp only [h1] at h
    cases h2 : (cs1.takeWhile isDurChar).isEmpty with
    | true => simp [h2] at h
    | false =>
      simp only [h2] at h
      cases h3 : dropLit (" seconds)".data) (cs1.dropWhile isDurChar) with
      | none => simp [h3] at h
      | some rest' =>
        simp only [h3, Bool.false_eq_true, if_false, Option.some.injEq,
          Prod.mk.injEq] at h
        exact h.1.symm

theorem matchTail_status (cs : Chars) (st d : String) (rest : Chars)
    (h : matchTail cs = some (st, d, rest)) : st = "passed" ∨ st = "failed" := by
  unfold matchTail at h
  cases h1 : dropLit ("' ".data) cs with
  | none => simp [h1] at h
  | some cs1 =>
    simp only [h1] at h
    cases h2 : dropLit ("passed".data) cs1 with
    | some cs2 => simp only [h2] at h; exact Or.inl (matchDur_status _ _ _ _ _ h)
    | none =>
      simp only [h2] at h
      cases h3 : dropLit ("failed".data) cs1 with
      | none => simp [h3] at h
      | some cs2 => simp only [h3] at h; exact Or.inr (matchDur_status _ _ _ _ _ h)

theorem lazyName_status (cs acc : Chars) (nm : Chars) (st d : String) (rest : Chars)
    (h : lazyName acc cs = some (nm, st, d, rest)) : st = "passed" ∨ st = "failed" := by
  induction cs generalizing acc with
  | nil =>
    have hz : lazyName acc [] = none := rfl
    rw [hz] at h; cases h
  | cons c cs' ih =>
    unfold lazyName at h
    cases hm : matchTail (c :: cs') with
    | some r =>
      obtain ⟨st1, d1, rest1⟩ := r
      simp only [hm, Option.some.injEq, Prod.mk.injEq] at h
      exact h.2.1 ▸ matchTail_status _ _ _ _ hm
    | none =>
      simp only [hm] at h
      by_cases hc : c = '\n'
      · simp [hc] at h
      · simp only [if_neg hc] at h
        exact ih _ h

theorem tryMatchAt_status (cs : Chars) (m : RawMatch) (rest : Chars)
    (h : tryMatchAt cs = some (m, rest)) : m.status = "passed" ∨ m.status = "failed" := by
  unfold tryMatchAt at h
  cases h1 : dropLit ("Test Case '".data) cs with
  | none => simp [h1] at h
  | some cs1 =>
    simp only [h1] at h
    cases h2 : lazyName [] cs1 with
    | none => simp [h2] at h
    | some r =>
      obtain ⟨nm, st, d, rest1⟩ := r
      simp only [h2, Option.some.injEq, Prod.mk.injEq] at h
      obtain ⟨h4, -⟩ := h
      subst h4
      exact lazyName_status _ _ _ _ _ _ h2

theorem findMatchesAux_status (fuel : Nat) (cs : Chars) (m : RawMatch)
    (hm : m ∈ findMatchesAux fuel cs) : m.status = "passed" ∨ m.status = "failed" := by
  induction fuel generalizing cs with
  | zero => cases hm
  | succ fuel ih =>
    cases cs with
    | nil =>
      unfold findMatchesAux at hm
      cases hm
    | cons c cs' =>
      unfold findMatchesAux at hm
      cases ht : tryMatchAt (c :: cs') with
      | some r =>
        obtain ⟨m', rest⟩ := r
        simp only [ht] at hm
        cases hm with
        | head => exact tryMatchAt_status _ _ _ ht
        | tail _ hm' => exact ih _ hm'
      | none =>
        simp only [ht] at hm
        exact ih _ hm

theorem findMatches_status (cs : Chars) (m : RawMatch) (hm : m ∈ findMatches cs) :
    m.status = "passed" ∨ m.status = "failed" :=
  findMatchesAux_status _ _ _ hm

theorem buildTests_status (ms : List RawMatch) (ts : List TestResult)
    (hms : ∀ m ∈ ms, m.status = "passed" ∨ m.status = "failed")
    (h : buildTests ms = .ok ts) :
    ∀ x ∈ ts, x.status = "passed" ∨ x.status = "failed" := by
  induction ms generalizing ts with
  | nil =>
    unfold buildTests at h
    simp only [Except.ok.injEq] at h
    subst h
    intro x hx
    cases hx
  | cons m rest ih =>
    unfold buildTests at h
    cases hd : parseDur m.dur with
    | none => simp [hd] at h
    | some d =>
      simp only [hd] at h
      cases hb : buildTests rest with
      | error e => simp [hb] at h
      | ok ts' =>
        simp only [hb, Except.ok.injEq] at h
        subst h
        intro x hx
        cases hx with
        | head => exact hms m (List.mem_cons_self _ _)
        | tail _ hx' =>
          exact ih ts' (fun m' hm' => hms m' (List.mem_cons_of_mem _ hm')) hb x hx'

theorem countStatus_split (ts : List TestResult)
    (h : ∀ x ∈ ts, x.status = "passed" ∨ x.status = "failed") :
    countStatus "passed" ts + countStatus "failed" ts = ts.length := by
  induction ts with
  | nil => rfl
  | cons t rest ih =>
    have ht := h t (List.mem_cons_self _ _)
    have hrest := ih (fun x hx => h x (List.mem_cons_of_mem _ hx))
    unfold countStatus at hrest ⊢
    rcases ht with h1 | h1 <;> simp [List.filter_cons, h1] <;> omega

/-- C2 (code_bug evidence): on a matched test-case line whose duration text is
`1.2.3`, the `float` call of `parse_results` raises `ValueError` (the model
returns `.error`), instead of rejecting the record as the spec requires. -/
theorem parse_results_raises_on_malformed_duration :
    parse_results "Test Case 'x' passed (1.2.3 seconds)" = .error "1.2.3" := by decide

/-- C10: a summary line reporting more failures than total tests makes
`parse_results` return a negative passed count (`passed = total - failed`
with no cross-validation): on `Executed 1 test, with 2 failures` it returns
`total = 1, passed = -1, failed = 2`. -/
theorem parse_results_negative_passed :
    parse_results "Executed 1 test, with 2 failures" = .ok ([], 1, -1, 2) ∧
      (-1 : Int) < 0 := by decide

/-- C1: totals tie-break of `parse_results`.  Whenever the parse succeeds,
(1) if the summary regex matches with groups `(n, fl)` then
`total = n`, `failed = fl`, `passed = n - fl`, regardless of the matched
records; (2) with no summary match but a nonempty record list, `total` is
the record count and `passed`/`failed` count the records by status;
(3) with no summary match and no records, all three are zero. -/
theorem parse_results_tiebreak (output : String) (tests : List TestResult) (t p f : Int)
    (h : parse_results output = .ok (tests, t, p, f)) :
    (∀ n fl : Nat, findSummary output.data = some (n, fl) →
        t = (n : Int) ∧ f = (fl : Int) ∧ p = (n : Int) - (fl : Int)) ∧
    (findSummary output.data = none → tests ≠ [] →
        t = (tests.length : Int) ∧ p = (countStatus "passed" tests : Int) ∧
          f = (countStatus "failed" tests : Int)) ∧
    (findSummary output.data = none → tests = [] → t = 0 ∧ p = 0 ∧ f = 0) := by
  unfold parse_results at h
  cases hb : buildTests (findMatches output.data) with
  | error e => simp [hb] at h
  | ok ts =>
    simp only [hb] at h
    cases hs : findSummary output.data with
    | some nf =>
      obtain ⟨n, fl⟩ := nf
      simp only [hs, Except.ok.injEq, Prod.mk.injEq] at h
      obtain ⟨hts, ht, hp, hf⟩ := h
      subst ht; subst hp; subst hf
      refine ⟨?_, ?_, ?_⟩
      · intro n' fl' hs'
        simp only [Option.some.injEq, Prod.mk.injEq] at hs'
        obtain ⟨hn, hfl⟩ := hs'
        subst hn; subst hfl
        exact ⟨rfl, rfl, rfl⟩
      · intro hnone; cases hnone
      · intro hnone; cases hnone
    | none =>
      simp only [hs] at h
      refine ⟨fun n' fl' hs' => ?_, fun _ hne => ?_, fun _ hemp => ?_⟩
      · cases hs'
      · cases hts : ts.isEmpty with
        | true =>
          simp only [hts, if_true, Except.ok.injEq, Prod.mk.injEq] at h
          obtain ⟨h1, -, -, -⟩ := h
          exact absurd (h1 ▸ List.isEmpty_iff.mp hts) hne
        | false =>
          simp only [hts, Bool.false_eq_true, if_false, Except.ok.injEq,
            Prod.mk.injEq] at h
          obtain ⟨h1, h2, h3, h4⟩ := h
          subst h1
          exact ⟨h2.symm, h3.symm, h4.symm⟩
      · cases hts : ts.isEmpty with
        | true =>
          simp only [hts, if_true, Except.ok.injEq, Prod.mk.injEq] at h
          obtain ⟨-, h2, h3, h4⟩ := h
          exact ⟨h2.symm, h3.symm, h4.symm⟩
        | false =>
          simp only [hts, Bool.false_eq_true, if_false, Except.ok.injEq,
            Prod.mk.injEq] at h
          obtain ⟨h1, -, -, -⟩ := h
          subst h1
          rw [hemp] at hts
          cases hts

/-- Witness for C1: on `Executed 12 tests, with 3 failures` (and no per-case
lines) the parse succeeds with `total = 12, passed = 9, failed = 3`, and the
summary branch of the tie-break applies. -/
theorem parse_results_tiebreak_witness :
    (12 : Int) = ((12 : Nat) : Int) ∧ (3 : Int) = ((3 : Nat) : Int) ∧
      (9 : Int) = ((12 : Nat) : Int) - ((3 : Nat) : Int) :=
  (parse_results_tiebreak "Executed 12 tests, with 3 failures" [] 12 9 3
      (by decide)).1 12 3 (by decide)

/-- C9: the totals of a successful `parse_results` call always satisfy
`total = passed + failed`, in all three branches of the tie-break. -/
theorem parse_results_total_invariant (output : String) (tests : List TestResult)
    (t p f : Int) (h : parse_results output = .ok (tests, t, p, f)) : t = p + f := by
  unfold parse_results at h
  cases hb : buildTests (findMatches output.data) with
  | error e => simp [hb] at h
  | ok ts =>
    simp only [hb] at h
    cases hs : findSummary output.data with
    | some nf =>
      obtain ⟨n, fl⟩ := nf
      simp only [hs, Except.ok.injEq, Prod.mk.injEq] at h
      obtain ⟨-, ht, hp, hf⟩ := h
      subst ht; subst hp; subst hf
      omega
    | none =>
      simp only [hs] at h
      cases hts : ts.isEmpty with
      | true =>
        simp only [hts, if_true, Except.ok.injEq, Prod.mk.injEq] at h
        obtain ⟨-, ht, hp, hf⟩ := h
        subst ht; subst hp; subst hf
        omega
      | false =>
        simp only [hts, Bool.false_eq_true, if_false, Except.ok.injEq,
          Prod.mk.injEq] at h
        obtain ⟨h1, ht, hp, hf⟩ := h
        subst h1; subst ht; subst hp; subst hf
        have hst := buildTests_status _ _ (fun m hm => findMatches_status _ m hm) hb
        have := countStatus_split _ hst
        omega

set_option maxRecDepth 16384 in
/-- Witness for C9: four per-case lines (three passed, one failed) and no
summary line give `total = 4 = 3 + 1`. -/
theorem parse_results_total_invariant_witness : (4 : Int) = 3 + 1 :=
  parse_results_total_invariant
    "Test Case 'a' passed (1 seconds)\nTest Case 'b' passed (2 seconds)\nTest Case 'c' passed (3 seconds)\nTest Case 'd' failed (4 seconds)"
    [⟨"a", "passed", mkRat 1 1⟩, ⟨"b", "passed", mkRat 2 1⟩,
     ⟨"c", "passed", mkRat 3 1⟩, ⟨"d", "failed", mkRat 4 1⟩]
    4 3 1 (by decide)

theorem pySplitAux_length_pos (sep : Char) (acc cs : Chars) :
    1 ≤ (pySplitAux sep acc cs).length := by
  induction cs generalizing acc with
  | nil => simp [pySplitAux]
  | cons c rest ih =>
    unfold pySplitAux
    by_cases hc : c = sep
    · simp [hc]
    · simp only [if_neg hc]
      exact ih _

theorem pySplitAux_length_ge_two (sep : Char) (acc cs : Chars) (h : sep ∈ cs) :
    2 ≤ (pySplitAux sep acc cs).length := by
  induction cs generalizing acc with
  | nil => cases h
  | cons c rest ih =>
    unfold pySplitAux
    by_cases hc : c = sep
    · have hp := pySplitAux_length_pos sep [] rest
      simp [hc]
      omega
    · have hmem : sep ∈ rest := by
        cases h with
        | head => exact absurd rfl hc
        | tail _ h' => exact h'
      simp only [if_neg hc]
      exact ih _ hmem

theorem pySplit_length_ge_two (sep : Char) (s : String) (h : sep ∈ s.data) :
    2 ≤ (pySplit sep s).length := by
  unfold pySplit
  rw [List.length_map]
  exact pySplitAux_length_ge_two sep [] s.data h

/-- C3: name normalization of `parse_results`.  An identifier containing a
dot keeps exactly the last two dot-separated components, joined by a dot
(the `len(parts) >= 2` guard never fails when a dot is present); an
identifier with no dot is kept verbatim; and the two spec examples hold. -/
theorem normalizeName_spec :
    (∀ s : String, '.' ∈ s.data →
        normalizeName s =
          (pySplit '.' s).getD ((pySplit '.' s).length - 2) "" ++ "." ++
            (pySplit '.' s).getD ((pySplit '.' s).length - 1) "") ∧
    (∀ s : String, '.' ∉ s.data → normalizeName s = s) ∧
    normalizeName "MyAppTests.LoginTests.testValidLogin" = "LoginTests.testValidLogin" ∧
    normalizeName "testSomething" = "testSomething" := by
  refine ⟨?_, ?_, by decide, by decide⟩
  · intro s hs
    have hc : s.data.contains '.' = true := by
      simpa using hs
    have h2 := pySplit_length_ge_two '.' s hs
    unfold normalizeName
    simp [hc, h2]
    exact fun h' => absurd hs h'
  · intro s hs
    have hc : s.data.contains '.' = false := by
      simpa using hs
    unfold normalizeName
    simp [hc]
    exact fun h' _ => absurd h' hs

/-- Witness for C3: the dotted example goes through the dot branch of the
normalization. -/
theorem normalizeName_spec_witness :
    normalizeName "a.b.c" =
      (pySplit '.' "a.b.c").getD ((pySplit '.' "a.b.c").length - 2) "" ++ "." ++
        (pySplit '.' "a.b.c").getD ((pySplit '.' "a.b.c").length - 1) "" :=
  normalizeName_spec.1 "a.b.c" (by decide)

/-- C4: per-line classification of `analyze_build_output`.  The scan yields at
most one record per split line; a line whose lowercased text contains
`error:` yields the critical Build Error record with the stripped line as
message (even when `warning:` is also present, so never both); a line with
only `warning:` yields the Build Warning record; a line with neither yields
none. -/
theorem analyze_build_output_single_record (output line : String) :
    (analyze_build_output output).length ≤ (pyLines output).length ∧
    (hasErrorMarker line = true →
        classifyLine line = some ⟨"Build Error", "critical", pyStrip line, none, none⟩) ∧
    (hasErrorMarker line = false → hasWarningMarker line = true →
        classifyLine line = some ⟨"Build Warning", "warning", pyStrip line, none, none⟩) ∧
    (hasErrorMarker line = false → hasWarningMarker line = false →
        classifyLine line = none) := by
  refine ⟨List.length_filterMap_le _ _, fun h1 => ?_, fun h1 h2 => ?_, fun h1 h2 => ?_⟩
  · simp [classifyLine, h1]
  · simp [classifyLine, h1, h2]
  · simp [classifyLine, h1, h2]

/-- Witness for C4: a line holding both markers is classified as a Build
Error only. -/
theorem analyze_build_output_single_record_witness :
    classifyLine "foo error: x warning: y" =
      some ⟨"Build Error", "critical", "foo error: x warning: y", none, none⟩ :=
  (analyze_build_output_single_record "" "foo error: x warning: y").2.1 (by decide)

/-- C5: display truncation of `generate_html`.  With more than 100 diagnostic
records the rendered list is exactly the first 100 in given order plus a
"N more" indicator for the rest, while the severity counts and the issues
total are computed over the whole list; outcomes are capped at 50 the same
way. -/
theorem generate_html_truncation (cfg : ProjectConfig) (tests : List TestResult)
    (issues : List DiagnosticIssue) (b : Bool) (h : issues.length > 100) :
    (generate_html cfg tests issues b).displayedIssues = issues.take 100 ∧
    (generate_html cfg tests issues b).displayedIssues.length = 100 ∧
    (generate_html cfg tests issues b).moreIssues = some (issues.length - 100) ∧
    (generate_html cfg tests issues b).criticalIssues =
      (issues.filter (fun i => i.severity == "critical")).length ∧
    (generate_html cfg tests issues b).warningIssues =
      (issues.filter (fun i => i.severity == "warning")).length ∧
    (generate_html cfg tests issues b).infoIssues =
      (issues.filter (fun i => i.severity == "info")).length ∧
    (generate_html cfg tests issues b).issuesFound = issues.length ∧
    (tests.length > 50 →
      (generate_html cfg tests issues b).displayedTests = tests.take 50 ∧
      (generate_html cfg tests issues b).displayedTests.length = 50 ∧
      (generate_html cfg tests issues b).moreTests = some (tests.length - 50)) := by
  refine ⟨rfl, ?_, ?_, rfl, rfl, rfl, rfl, fun ht => ⟨rfl, ?_, ?_⟩⟩
  · show (issues.take 100).length = 100
    rw [List.length_take]
    omega
  · show (if issues.length > 100 then some (issues.length - 100) else none) =
      some (issues.length - 100)
    rw [if_pos h]
  · show (tests.take 50).length = 50
    rw [List.length_take]
    omega
  · show (if tests.length > 50 then some (tests.length - 50) else none) =
      some (tests.length - 50)
    rw [if_pos ht]

/-- Witness for C5: 120 diagnostic records render as the first 100 plus a
"20 more" indicator, with all 120 still counted. -/
theorem generate_html_truncation_witness :
    (generate_html ⟨"p", "n", "f", "s", false, none⟩ []
        (List.replicate 120 ⟨"Build Error", "critical", "m", none, none⟩) true).moreIssues =
        some 20 ∧
    (generate_html ⟨"p", "n", "f", "s", false, none⟩ []
        (List.replicate 120 ⟨"Build Error", "critical", "m", none, none⟩) true).issuesFound =
        120 := by
  have h := generate_html_truncation ⟨"p", "n", "f", "s", false, none⟩ []
    (List.replicate 120 ⟨"Build Error", "critical", "m", none, none⟩) true (by simp)
  exact ⟨by simpa using h.2.2.1, by simpa using h.2.2.2.2.2.2.1⟩

/-- C6: the success rate of `generate_html` is `passed/total*100` whenever at
least one outcome is given, and is defined as `0` (no division) when the
outcome list is empty. -/
theorem generate_html_success_rate (cfg : ProjectConfig) (issues : List DiagnosticIssue)
    (b : Bool) :
    (generate_html cfg [] issues b).successRate = 0 ∧
    ∀ tests : List TestResult, tests ≠ [] →
      (generate_html cfg tests issues b).successRate =
        ((tests.filter (fun t => t.status == "passed")).length : Rat) /
          (tests.length : Rat) * 100 := by
  refine ⟨rfl, fun tests hne => ?_⟩
  have hpos : tests.length > 0 := List.length_pos.mpr hne
  show (if tests.length > 0 then
      ((tests.filter (fun t => t.status == "passed")).length : Rat) /
        (tests.length : Rat) * 100
    else 0) = _
  rw [if_pos hpos]

/-- Witness for C6: zero outcomes give rate 0; a single passed outcome gives
rate 100. -/
theorem generate_html_success_rate_witness :
    (generate_html ⟨"p", "n", "f", "s", false, none⟩ [] [] true).successRate = 0 ∧
    (generate_html ⟨"p", "n", "f", "s", false, none⟩ [⟨"t", "passed", 1⟩] [] true).successRate
      = 100 := by
  have h := generate_html_success_rate ⟨"p", "n", "f", "s", false, none⟩ [] true
  refine ⟨h.1, ?_⟩
  rw [h.2 [⟨"t", "passed", 1⟩] (by simp)]
  norm_num

theorem analyze_source_code_append (xs ys : List SwiftFile) :
    analyze_source_code (xs ++ ys) =
      analyze_source_code xs ++ analyze_source_code ys := by
  induction xs with
  | nil => rfl
  | cons f rest ih =>
    show ((match f.content with
            | none => []
            | some c => analyzeFile f c) ++ analyze_source_code (rest ++ ys)) = _
    rw [ih]
    simp [analyze_source_code, List.append_assoc]

/-- C7: per-file isolation of `analyze_source_code`.  An unreadable file
(content `none`) contributes nothing and does not disturb the rest of the
scan; the result is the concatenation, in traversal order, of each readable
file's records; and one file contributes at most four records (one per
heuristic). -/
theorem analyze_source_code_isolation :
    (∀ (xs ys : List SwiftFile) (f : SwiftFile), f.content = none →
        analyze_source_code (xs ++ f :: ys) = analyze_source_code (xs ++ ys)) ∧
    (∀ files : List SwiftFile,
        analyze_source_code files =
          (files.filterMap (fun f => f.content.map (fun c => analyzeFile f c))).flatten) ∧
    (∀ (f : SwiftFile) (c : String), (analyzeFile f c).length ≤ 4) := by
  refine ⟨fun xs ys f hf => ?_, fun files => ?_, fun f c => ?_⟩
  · rw [analyze_source_code_append, analyze_source_code_append]
    show analyze_source_code xs ++
        ((match f.content with
          | none => []
          | some c => analyzeFile f c) ++ analyze_source_code ys) = _
    rw [hf]
    rfl
  · induction files with
    | nil => rfl
    | cons f rest ih =>
      cases hf : f.content with
      | none =>
        show ((match f.content with
                | none => []
                | some c => analyzeFile f c) ++ analyze_source_code rest) = _
        rw [hf]
        simp [List.filterMap_cons, hf, ih]
      | some c =>
        show ((match f.content with
                | none => []
                | some c => analyzeFile f c) ++ analyze_source_code rest) = _
        rw [hf]
        simp [List.filterMap_cons, hf, ih]
  · unfold analyzeFile
    split_ifs <;> simp

/-- Witness for C7: a lone unreadable file produces an empty scan. -/
theorem analyze_source_code_isolation_witness :
    analyze_source_code ([] ++ (⟨"p", "n", none⟩ : SwiftFile) :: []) =
      analyze_source_code ([] ++ []) :=
  analyze_source_code_isolation.1 [] [] ⟨"p", "n", none⟩ rfl

/-- C8: `CommandRunner.run` returns `succeeded = true` exactly when the exit
status is zero; a process that ran returns the full accumulated output (also
on nonzero exit); any exception yields `(false, "", error)` instead of
propagating. -/
theorem CommandRunner_run_contract :
    (∀ (lines : List String) (rc : Int),
        ((CommandRunner.run (.ok (lines, rc))).1 = true ↔ rc = 0) ∧
        CommandRunner.run (.ok (lines, rc)) = (rc == 0, String.join lines, "")) ∧
    (∀ e : String, CommandRunner.run (.error e) = (false, "", e)) := by
  refine ⟨fun lines rc => ⟨?_, rfl⟩, fun e => rfl⟩
  show (rc == 0) = true ↔ rc = 0
  simp

/-- Witness for C8: exit status 0 reports success. -/
theorem CommandRunner_run_contract_witness :
    (CommandRunner.run (.ok (["ok"], 0))).1 = true :=
  ((CommandRunner_run_contract.1 ["ok"] 0).1).mpr rfl

theorem dropLit_length (lit cs cs' : Chars) (h : dropLit lit cs = some cs') :
    cs'.length + lit.length = cs.length := by
  unfold dropLit at h
  by_cases hp : lit.isPrefixOf cs
  · simp only [hp, if_true, Option.some.injEq] at h
    have hle : lit.length ≤ cs.length :=
      (List.isPrefixOf_iff_prefix.mp hp).length_le
    subst h
    rw [List.length_drop]
    omega
  · simp [hp] at h

theorem matchDur_length (st : String) (cs : Chars) (st' d : String) (rest : Chars)
    (h : matchDur st cs = some (st', d, rest)) : rest.length ≤ cs.length := by
  unfold matchDur at h
  cases h1 : dropLit (" (".data) cs with
  | none => simp [h1] at h
  | some cs1 =>
    simp only [h1] at h
    have hl1 := dropLit_length _ _ _ h1
    cases h2 : (cs1.takeWhile isDurChar).isEmpty with
    | true => simp [h2] at h
    | false =>
      simp only [h2] at h
      cases h3 : dropLit (" seconds)".data) (cs1.dropWhile isDurChar) with
      | none => simp [h3] at h
      | some rest' =>
        simp only [h3, Bool.false_eq_true, if_false, Option.some.injEq,
          Prod.mk.injEq] at h
        have hl3 := dropLit_length _ _ _ h3
        have hdw : (cs1.dropWhile isDurChar).length ≤ cs1.length :=
          (List.dropWhile_sublist _).length_le
        obtain ⟨-, -, hr⟩ := h
        subst hr
        have e1 : ((" (".data : Chars)).length = 2 := rfl
        have e3 : ((" seconds)".data : Chars)).length = 9 := rfl
        rw [e1] at hl1
        rw [e3] at hl3
        omega

theorem matchTail_length (cs : Chars) (st d : String) (rest : Chars)
    (h : matchTail cs = some (st, d, rest)) : rest.length + 1 ≤ cs.length := by
  unfold matchTail at h
  cases h1 : dropLit ("' ".data) cs with
  | none => simp [h1] at h
  | some cs1 =>
    simp only [h1] at h
    have hl1 := dropLit_length _ _ _ h1
    cases h2 : dropLit ("passed".data) cs1 with
    | some cs2 =>
      simp only [h2] at h
      have hl2 := dropLit_length _ _ _ h2
      have := matchDur_length _ _ _ _ _ h
      have e1 : (("' ".data : Chars)).length = 2 := rfl
      have e2 : (("passed".data : Chars)).length = 6 := rfl
      rw [e1] at hl1
      rw [e2] at hl2
      omega
    | none =>
      simp only [h2] at h
      cases h3 : dropLit ("failed".data) cs1 with
      | none => simp [h3] at h
      | some cs2 =>
        simp only [h3] at h
        have hl3 := dropLit_length _ _ _ h3
        have := matchDur_length _ _ _ _ _ h
        have e1 : (("' ".data : Chars)).length = 2 := rfl
        have e3 : (("failed".data : Chars)).length = 6 := rfl
        rw [e1] at hl1
        rw [e3] at hl3
        omega

theorem lazyName_length (cs acc : Chars) (nm : Chars) (st d : String) (rest : Chars)
    (h : lazyName acc cs = some (nm, st, d, rest)) : rest.length ≤ cs.length := by
  induction cs generalizing acc with
  | nil =>
    have hz : lazyName acc [] = none := rfl
    rw [hz] at h; cases h
  | cons c cs' ih =>
    unfold lazyName at h
    cases hm : matchTail (c :: cs') with
    | some r =>
      obtain ⟨st1, d1, rest1⟩ := r
      simp only [hm, Option.some.injEq, Prod.mk.injEq] at h
      obtain ⟨-, -, -, hr⟩ := h
      subst hr
      have := matchTail_length _ _ _ _ hm
      omega
    | none =>
      simp only [hm] at h
      by_cases hc : c = '\n'
      · simp [hc] at h
      · simp only [if_neg hc] at h
        have := ih _ h
        simp only [List.length_cons]
        omega

theorem tryMatchAt_length (cs : Chars) (m : RawMatch) (rest : Chars)
    (h : tryMatchAt cs = some (m, rest)) : rest.length < cs.length := by
  unfold tryMatchAt at h
  cases h1 : dropLit ("Test Case '".data) cs with
  | none => simp [h1] at h
  | some cs1 =>
    simp only [h1] at h
    have hl1 := dropLit_length _ _ _ h1
    cases h2 : lazyName [] cs1 with
    | none => simp [h2] at h
    | some r =>
      obtain ⟨nm, st, d, rest1⟩ := r
      simp only [h2, Option.some.injEq, Prod.mk.injEq] at h
      obtain ⟨-, hr⟩ := h
      subst hr
      have := lazyName_length _ _ _ _ _ _ h2
      have e1 : (("Test Case '".data : Chars)).length = 11 := rfl
      rw [e1] at hl1
      omega

/-- Justification of the fuel in `findMatches`: any fuel at least the text
length gives the same match list, so the chosen `cs.length` never cuts the
scan short (each step consumes at least one character). -/
theorem findMatchesAux_fuel (fuel : Nat) : ∀ (fuel' : Nat) (cs : Chars),
    cs.length ≤ fuel → cs.length ≤ fuel' →
    findMatchesAux fuel cs = findMatchesAux fuel' cs := by
  induction fuel with
  | zero =>
    intro fuel' cs h h'
    have : cs = [] := List.length_eq_zero.mp (Nat.le_zero.mp h)
    subst this
    cases fuel' with
    | zero => rfl
    | succ f' => rfl
  | succ f ih =>
    intro fuel' cs h h'
    cases cs with
    | nil =>
      cases fuel' with
      | zero => rfl
      | succ f' => rfl
    | cons c cs' =>
      cases fuel' with
      | zero => simp at h'
      | succ f' =>
        cases ht : tryMatchAt (c :: cs') with
        | some r =>
          obtain ⟨m, rest⟩ := r
          have hlen := tryMatchAt_length _ _ _ ht
          unfold findMatchesAux
          simp only [ht]
          simp only [List.length_cons] at h h' hlen
          rw [ih f' rest (by omega) (by omega)]
        | none =>
          unfold findMatchesAux
          simp only [ht]
          simp only [List.length_cons] at h h'
          exact ih f' cs' (by omega) (by omega)

theorem findMatches_fuel (fuel : Nat) (cs : Chars) (h : cs.length ≤ fuel) :
    findMatches cs = findMatchesAux fuel cs :=
  findMatchesAux_fuel cs.length fuel cs (Nat.le_refl _) h
